import Mathlib

/-!
Shallow embedding of the retrieval / ranking / validation / caching engine of
the CV generator repository: `cv_gen/services/rag_service.py` (class
`EnhancedRAGService`) together with the model metadata it depends on from
`cv_gen/models.py`.

Numeric conventions: Python floats are modelled as `Rat`; the embedding
backend (`EmbeddingService.generate_embedding`) and scikit-learn's
`cosine_similarity` are external numeric collaborators and are passed in as
function parameters (`embedE` / `embed` and `cos`).  A raising embedding
backend is modelled with `Except Unit`.
-/

namespace CvGen

open List

/-- A corpus entry, mirroring the fields of the `KnowledgeBase` model
(`cv_gen/models.py`) that the retrieval engine reads.  `embedding` is the
parsed form of `embedding_vector`: `none` models a JSON vector that
`_parse_embedding_vector` fails to parse (and turns into Python `None`).
The corpus is kept as a `List KBEntry` in insertion order; `Meta.ordering =
["-created_at"]` (newest first) is modelled by `dbOrder` below. -/
structure KBEntry where
  id : Nat
  title : String
  content : String
  profession : String
  cv_section : String
  content_type : String
  confidence_score : Rat
  word_count : Int
  embedding : Option (List Rat)
deriving DecidableEq, Repr

/-- Reason codes of the `issues` list built by `validate_generation`
(rag_service.py).  Each constructor stands for one appended message string;
score payloads record the interpolated score value.  `validationSkipped` is
the "Validation skipped due to error" reason of the `except` branch. -/
inductive Issue where
  | tooShort
  | lowRelevance (score : Rat)
  | notWellGrounded (score : Rat)
  | tooFewWords
  | validationSkipped
deriving DecidableEq, Repr

/-- Python `str.strip()` on the character sequence: drop leading and
trailing whitespace; used for `len(generated_text.strip())`. -/
def pyStrip (s : String) : List Char :=
  ((s.data.dropWhile Char.isWhitespace).reverse.dropWhile Char.isWhitespace).reverse

/-- Python `str.split()` with no argument: the maximal non-whitespace runs
(split at every whitespace character, dropping empty pieces); used for
`len(generated_text.split())`. -/
def pyWords (s : String) : List (List Char) :=
  (s.data.splitOnP Char.isWhitespace).filter (fun w => w ≠ [])

/-- Python `str.lower()` on the character sequence. -/
def pyLower (s : String) : List Char :=
  s.data.map Char.toLower

/-- Python substring test `sub in s` on character sequences. -/
def strContainsSub (s sub : List Char) : Bool :=
  decide (sub <:+: s)

/-- The fixed action-verb list of check 4 in `validate_generation`. -/
def actionVerbs : List String :=
  ["implemented", "developed", "designed", "managed", "led", "created", "built"]

/-- The context-embedding list comprehension
`[self.embedding_service.generate_embedding(ex.content) for ex in context_examples]`:
embeds each entry's content in order, aborting at the first raised error. -/
def embedAll (embedE : String → Except Unit (List Rat)) :
    List KBEntry → Except Unit (List (List Rat))
  | [] => Except.ok []
  | ex :: rest => do
    let v ← embedE ex.content
    let vs ← embedAll embedE rest
    pure (v :: vs)

/-- The body of `validate_generation` as executed inside its `try`:
length check, query-relevance check, context-grounding check, quality
heuristics, confidence and the final verdict.  Any embedding failure aborts
the whole body (Python exception propagation to the outer `except`). -/
def validateBody (embedE : String → Except Unit (List Rat))
    (cos : List Rat → List Rat → Rat)
    (query_text generated_text : String) (context_examples : List KBEntry) :
    Except Unit (Bool × List Issue × Rat) := do
  let issues0 : List Issue :=
    if (pyStrip generated_text).length < 50 then [Issue.tooShort] else []
  let gen_embedding ← embedE generated_text
  let query_embedding ← embedE query_text
  let relevance := cos gen_embedding query_embedding
  let issues1 := issues0 ++
    (if relevance < mkRat 3 10 then [Issue.lowRelevance relevance] else [])
  let context_embeddings ← embedAll embedE context_examples
  let grounding_scores := context_embeddings.map (fun ce => cos gen_embedding ce)
  let max_grounding : Rat :=
    match grounding_scores with
    | [] => 0
    | x :: xs => xs.foldl max x
  let issues2 := issues1 ++
    (if max_grounding < mkRat 1 5 then [Issue.notWellGrounded max_grounding] else [])
  let word_count := (pyWords generated_text).length
  let has_numbers := generated_text.data.any Char.isDigit
  let has_action_verbs := actionVerbs.any (fun v => strContainsSub (pyLower generated_text) v.data)
  let issues3 := issues2 ++ (if word_count < 30 then [Issue.tooFewWords] else [])
  let c1 : Rat := if has_numbers then 1 else 1 - mkRat 1 10
  let c2 : Rat := if has_action_verbs then c1 else c1 - mkRat 3 20
  let confidence := max 0 c2
  let is_valid := issues3.isEmpty && decide (confidence > mkRat 1 2)
  pure (is_valid, issues3, confidence)

/-- `validate_generation` (rag_service.py): run the body and, if anything
inside raised, return the degraded verdict
`(True, "Validation skipped due to error", 0.5)`. -/
def validate_generation (embedE : String → Except Unit (List Rat))
    (cos : List Rat → List Rat → Rat)
    (query_text generated_text : String) (context_examples : List KBEntry) :
    Bool × List Issue × Rat :=
  match validateBody embedE cos query_text generated_text context_examples with
  | Except.ok v => v
  | Except.error _ => (true, [Issue.validationSkipped], mkRat 1 2)

/-- The validator body, unfolded for an embedding backend that never raises. -/
def validateCore (embed : String → List Rat)
    (cos : List Rat → List Rat → Rat)
    (query_text generated_text : String) (context_examples : List KBEntry) :
    Bool × List Issue × Rat :=
  let issues0 : List Issue :=
    if (pyStrip generated_text).length < 50 then [Issue.tooShort] else []
  let gen_embedding := embed generated_text
  let query_embedding := embed query_text
  let relevance := cos gen_embedding query_embedding
  let issues1 := issues0 ++
    (if relevance < mkRat 3 10 then [Issue.lowRelevance relevance] else [])
  let context_embeddings := context_examples.map (fun ex => embed ex.content)
  let grounding_scores := context_embeddings.map (fun ce => cos gen_embedding ce)
  let max_grounding : Rat :=
    match grounding_scores with
    | [] => 0
    | x :: xs => xs.foldl max x
  let issues2 := issues1 ++
    (if max_grounding < mkRat 1 5 then [Issue.notWellGrounded max_grounding] else [])
  let word_count := (pyWords generated_text).length
  let has_numbers := generated_text.data.any Char.isDigit
  let has_action_verbs := actionVerbs.any (fun v => strContainsSub (pyLower generated_text) v.data)
  let issues3 := issues2 ++ (if word_count < 30 then [Issue.tooFewWords] else [])
  let c1 : Rat := if has_numbers then 1 else 1 - mkRat 1 10
  let c2 : Rat := if has_action_verbs then c1 else c1 - mkRat 3 20
  let confidence := max 0 c2
  let is_valid := issues3.isEmpty && decide (confidence > mkRat 1 2)
  (is_valid, issues3, confidence)

theorem embedAll_ok (embed : String → List Rat) (l : List KBEntry) :
    embedAll (fun t => Except.ok (embed t)) l =
      Except.ok (l.map (fun ex => embed ex.content)) := by
  induction l with
  | nil => rfl
  | cons ex rest ih =>
    simp only [embedAll, ih]
    rfl

theorem validateBody_ok (embed : String → List Rat)
    (cos : List Rat → List Rat → Rat)
    (q g : String) (ctx : List KBEntry) :
    validateBody (fun t => Except.ok (embed t)) cos q g ctx =
      Except.ok (validateCore embed cos q g ctx) := by
  simp only [validateBody, embedAll_ok]
  rfl

theorem validate_generation_ok (embed : String → List Rat)
    (cos : List Rat → List Rat → Rat)
    (q g : String) (ctx : List KBEntry) :
    validate_generation (fun t => Except.ok (embed t)) cos q g ctx =
      validateCore embed cos q g ctx := by
  simp [validate_generation, validateBody_ok]

/-- Django `KnowledgeBase.Meta.ordering = ["-created_at"]` (cv_gen/models.py):
every unordered queryset iterates newest-first.  With the corpus kept in
insertion order and `created_at` strictly increasing, the database order is
the reverse of insertion order. -/
def dbOrder (corpus : List KBEntry) : List KBEntry :=
  corpus.reverse

/-- One facet filter step: `if profession: kb_query = kb_query.filter(...)`.
A `None` or empty-string filter value is falsy in Python, so it imposes no
constraint; otherwise the field must match exactly. -/
def passFilter (fv : Option String) (field : String) : Bool :=
  match fv with
  | none => true
  | some v => if v = "" then true else field = v

/-- The similarity loop of `retrieve_similar_examples` (STEP 4): for each
entry, parse its embedding (`none` is skipped with `continue`) and pair the
entry with its cosine similarity to the query embedding. -/
def similarityList (cos : List Rat → List Rat → Rat) (qe : List Rat)
    (entries : List KBEntry) : List (KBEntry × Rat) :=
  entries.filterMap (fun e => e.embedding.map (fun v => (e, cos qe v)))

/-- The comparison used by both sorts of the engine:
`sort(key=lambda x: score(x), reverse=True)` keeps `x` before `y` exactly
when `y`'s score is at most `x`'s. -/
def descSnd {α : Type} (x y : α × Rat) : Bool :=
  decide (y.2 ≤ x.2)

/-- STEP 5 of `retrieve_similar_examples`:
`similarities.sort(key=lambda x: x["score"], reverse=True)`.  Python's sort
is stable, and `reverse=True` reverses the comparison, not the list, so this
is a stable descending sort on the score. -/
def rankedSimilarities (cos : List Rat → List Rat → Rat) (qe : List Rat)
    (entries : List KBEntry) : List (KBEntry × Rat) :=
  (similarityList cos qe entries).mergeSort descSnd

/-- The fixed content-type lookup of `_rerank_results`:
`{"job_description": 1.0, "paragraph": 0.8, "bullet": 0.6,
"achievement": 0.7}.get(result.content_type, 0.5)`. -/
def content_type_score (ct : String) : Rat :=
  if ct = "job_description" then 1
  else if ct = "paragraph" then mkRat 8 10
  else if ct = "bullet" then mkRat 6 10
  else if ct = "achievement" then mkRat 7 10
  else mkRat 5 10

/-- The composite re-ranking score of `_rerank_results`:
`(base_score * 0.3) + (confidence * 0.4) + (content_type_score * 0.3)` with
`base_score = min(word_count / 500, 1.0)`. -/
def rerankScore (r : KBEntry) : Rat :=
  let base_score := min (mkRat r.word_count 500) 1
  base_score * mkRat 3 10 + r.confidence_score * mkRat 4 10 +
    content_type_score r.content_type * mkRat 3 10

/-- `_rerank_results` (rag_service.py): score every input entry, sort stably
by descending composite score, and truncate with `reranked[:top_k] if top_k
else reranked` — note that both `None` and `0` are falsy, so `top_k=0`
returns the whole list. -/
def _rerank_results (query_text : String) (results : List KBEntry)
    (top_k : Option Nat) : List KBEntry :=
  if results.isEmpty then results
  else
    let scores := results.map (fun r => (r, rerankScore r))
    let sorted := scores.mergeSort descSnd
    let reranked := sorted.map Prod.fst
    match top_k with
    | none => reranked
    | some 0 => reranked
    | some k => reranked.take k

/-- A row of the `RAGCache` model (cv_gen/models.py), holding the fields the
engine reads and writes.  `result_ids` is `cached_results["result_ids"]`. -/
structure CacheRecord where
  profession : String
  cv_section : String
  query_text : String
  result_ids : List Nat
  hit_count : Nat
deriving DecidableEq, Repr

/-- The `RAGCache` table, keyed by the unique `query_hash` column. -/
abbrev Cache := List (String × CacheRecord)

def cacheLookup (c : Cache) (h : String) : Option CacheRecord :=
  (c.find? (fun kv => kv.1 = h)).map Prod.snd

def cacheUpdate (c : Cache) (h : String) (r : CacheRecord) : Cache :=
  c.map (fun kv => if kv.1 = h then (h, r) else kv)

/-- Python `x or default` for the optional filter strings (`profession or
"General"`, `cv_section or "all"`): `None` and `""` are falsy. -/
def orDefault (fv : Option String) (d : String) : String :=
  match fv with
  | none => d
  | some v => if v = "" then d else v

/-- The cache key string of `_get_query_hash`:
`f"{query_text}_{profession}_{cv_section}"`, where Python renders `None` as
the four characters `None`. -/
def cache_key (query_text : String) (profession cv_section : Option String) :
    String :=
  query_text ++ "_" ++ (match profession with | some v => v | none => "None")
    ++ "_" ++ (match cv_section with | some v => v | none => "None")

/-- `_get_query_hash`: SHA-256 of the cache key.  The hash itself is an
external primitive, passed in as `sha`; everything the engine relies on is
that it is a function of the key string. -/
def _get_query_hash (sha : String → String) (query_text : String)
    (profession cv_section : Option String) : String :=
  sha (cache_key query_text profession cv_section)

/-- `_get_cached_results`: look the fingerprint up; on a hit, increment the
hit counter, save it, and return the cached IDs re-resolved against the
current corpus via `KnowledgeBase.objects.filter(id__in=result_ids)` — a
fresh queryset, so the rows come back in `Meta.ordering` (newest-first)
order, and IDs that no longer resolve are dropped.  Returns the (possibly
updated) cache alongside. -/
def _get_cached_results (sha : String → String) (corpus : List KBEntry)
    (c : Cache) (query_text : String) (profession cv_section : Option String) :
    Option (List KBEntry) × Cache :=
  let h := _get_query_hash sha query_text profession cv_section
  match cacheLookup c h with
  | none => (none, c)
  | some r =>
    let r2 := { r with hit_count := r.hit_count + 1 }
    let results := (dbOrder corpus).filter (fun e => r.result_ids.contains e.id)
    (some results, cacheUpdate c h r2)

/-- `_cache_results`: `RAGCache.objects.update_or_create(query_hash=h,
defaults={...})` — update the defaults fields of an existing row (leaving
`hit_count` untouched) or insert a fresh row with `hit_count = 0`. -/
def _cache_results (sha : String → String) (c : Cache) (query_text : String)
    (profession cv_section : Option String) (results : List KBEntry) : Cache :=
  let h := _get_query_hash sha query_text profession cv_section
  let ids := results.map KBEntry.id
  match cacheLookup c h with
  | some old =>
    cacheUpdate c h
      { old with
        profession := orDefault profession "General"
        cv_section := orDefault cv_section "all"
        query_text := query_text
        result_ids := ids }
  | none =>
    c ++ [(h,
      { profession := orDefault profession "General"
        cv_section := orDefault cv_section "all"
        query_text := query_text
        result_ids := ids
        hit_count := 0 })]

/-- STEP 3 of `retrieve_similar_examples`: the facet-filtered candidate set
`kb_query[:2000]`, iterated in database (newest-first) order. -/
def filteredCandidates (corpus : List KBEntry)
    (profession cv_section : Option String) : List KBEntry :=
  ((dbOrder corpus).filter (fun e =>
    passFilter profession e.profession && passFilter cv_section e.cv_section)).take 2000

/-- The cache-miss computation of `retrieve_similar_examples` (STEPS 2-5 and
the re-rank): embed the query, facet-filter the corpus (in database order,
capped at 2000), score, sort stably by descending similarity, take `top_k`,
and re-rank (with no truncation: `_rerank_results` is called without
`top_k`). -/
def retrieveCompute (cos : List Rat → List Rat → Rat)
    (embed : String → List Rat) (corpus : List KBEntry) (query_text : String)
    (profession cv_section : Option String) (top_k : Nat) : List KBEntry :=
  let query_embedding := embed query_text
  let kb_entries := filteredCandidates corpus profession cv_section
  let sorted := rankedSimilarities cos query_embedding kb_entries
  let top_results := (sorted.take top_k).map Prod.fst
  _rerank_results query_text top_results none

/-- `retrieve_similar_examples` (rag_service.py): with `use_cache`, a cache
hit whose re-resolved list is non-empty (`if cached:`) is returned directly
— note the hit counter was already incremented, and an empty cached list is
falsy and falls through to recomputation.  On a miss (or empty hit) the
result is computed and cached.  Returns the result list together with the
updated cache state. -/
def retrieve_similar_examples (cos : List Rat → List Rat → Rat)
    (embed : String → List Rat) (sha : String → String)
    (corpus : List KBEntry) (c : Cache) (query_text : String)
    (profession cv_section : Option String) (top_k : Nat) (use_cache : Bool) :
    List KBEntry × Cache :=
  if use_cache then
    match _get_cached_results sha corpus c query_text profession cv_section with
    | (some cached, c2) =>
      if cached.isEmpty then
        let res := retrieveCompute cos embed corpus query_text profession cv_section top_k
        (res, _cache_results sha c2 query_text profession cv_section res)
      else (cached, c2)
    | (none, c2) =>
      let res := retrieveCompute cos embed corpus query_text profession cv_section top_k
      (res, _cache_results sha c2 query_text profession cv_section res)
  else
    (retrieveCompute cos embed corpus query_text profession cv_section top_k, c)

/-- Observer for the hit counter of the cache row with fingerprint `h`
(0 when the row does not exist). -/
def hitCount (c : Cache) (h : String) : Nat :=
  match cacheLookup c h with
  | some r => r.hit_count
  | none => 0

/-- The combination step of `hybrid_search` (rag_service.py lines 212-224):
given the semantic and keyword result lists, build the union of their ID
sets, then evaluate the comprehension
`[next((r for r in semantic_results if r.id in all_ids), None) or
next((r for r in keyword_results if r.id in all_ids), None)
for _ in range(len(all_ids))]` — the same pick on every iteration — filter
out `None`, and truncate to `top_k`. -/
def hybridCombine (semantic_results keyword_results : List KBEntry)
    (top_k : Nat) : List KBEntry :=
  let semantic_ids := semantic_results.map KBEntry.id
  let keyword_ids := keyword_results.map KBEntry.id
  let all_ids := (semantic_ids ++ keyword_ids).dedup
  let pick : Option KBEntry :=
    (semantic_results.find? (fun r => all_ids.contains r.id)).orElse
      (fun _ => keyword_results.find? (fun r => all_ids.contains r.id))
  let combined := (List.replicate all_ids.length pick).filterMap id
  combined.take top_k

/-! ### Helper lemmas -/

theorem mkRat_eq_div (n : Int) (d : Nat) : mkRat n d = (n : Rat) / (d : Rat) := by
  rw [Rat.mkRat_eq_divInt, Rat.divInt_eq_div]
  norm_num

theorem descSnd_trans {α : Type} (a b c : α × Rat) :
    descSnd a b → descSnd b c → descSnd a c := by
  simp only [descSnd, decide_eq_true_eq]
  exact fun h1 h2 => le_trans h2 h1

theorem descSnd_total {α : Type} (a b : α × Rat) :
    descSnd a b || descSnd b a := by
  simp only [descSnd]
  rcases le_total a.2 b.2 with h | h <;> simp [h]

theorem mergeSort_pair {α : Type} (le : α → α → Bool) (a b : α) :
    [a, b].mergeSort le = if le a b then [a, b] else [b, a] := by
  rw [List.mergeSort]
  simp [List.splitInTwo, List.splitAt_eq, List.merge]

theorem similarityList_fst_sublist (cos : List Rat → List Rat → Rat)
    (qe : List Rat) (l : List KBEntry) :
    (similarityList cos qe l).map Prod.fst <+ l := by
  induction l with
  | nil => simp [similarityList]
  | cons e rest ih =>
    cases he : e.embedding with
    | none => simpa [similarityList, List.filterMap_cons, he] using ih.cons e
    | some v => simpa [similarityList, List.filterMap_cons, he] using ih.cons₂ e

theorem similarityList_sublist (cos : List Rat → List Rat → Rat)
    (qe : List Rat) {l₁ l₂ : List KBEntry} (h : l₁ <+ l₂) :
    similarityList cos qe l₁ <+ similarityList cos qe l₂ :=
  h.filterMap _

theorem rerank_sorted_fst_perm (l : List KBEntry) :
    ((l.map (fun r => (r, rerankScore r))).mergeSort descSnd).map Prod.fst ~ l := by
  have h1 := List.mergeSort_perm (l.map (fun r => (r, rerankScore r))) descSnd
  calc ((l.map (fun r => (r, rerankScore r))).mergeSort descSnd).map Prod.fst
      ~ (l.map (fun r => (r, rerankScore r))).map Prod.fst := h1.map _
    _ = l := by
      rw [List.map_map]
      have h2 : (Prod.fst ∘ fun r : KBEntry => (r, rerankScore r)) = id := rfl
      rw [h2, List.map_id]

theorem rerank_none_perm (q : String) (l : List KBEntry) :
    _rerank_results q l none ~ l := by
  unfold _rerank_results
  by_cases h : l.isEmpty
  · simp [h]
  · simpa [h] using rerank_sorted_fst_perm l

/-! ### Concrete instances used by counterexamples and witnesses -/

def eA : KBEntry :=
  { id := 1, title := "A", content := "alpha", profession := "General",
    cv_section := "summary", content_type := "job_description",
    confidence_score := 1, word_count := 500, embedding := some [1] }

def eB : KBEntry :=
  { id := 2, title := "B", content := "beta", profession := "General",
    cv_section := "summary", content_type := "bullet",
    confidence_score := 0, word_count := 0, embedding := some [1] }

def eC : KBEntry :=
  { id := 3, title := "C", content := "gamma", profession := "General",
    cv_section := "summary", content_type := "bullet",
    confidence_score := 1, word_count := 10, embedding := some [1] }

def eD : KBEntry :=
  { id := 4, title := "D", content := "delta", profession := "General",
    cv_section := "summary", content_type := "bullet",
    confidence_score := 1, word_count := 10, embedding := some [1] }

def cosOne : List Rat → List Rat → Rat := fun _ _ => 1

def embOne : String → List Rat := fun _ => [1]

def shaId : String → String := fun s => s

/-- A generated text that passes every check except grounding: 73 characters
after trimming, 32 words, a digit, and the action verb at the front. -/
def gLong : String :=
  "implemented 1 w w w w w w w w w w w w w w w w w w w w w w w w w w w w w w"

/-! ### Claim theorems -/

/-- C9: the cache fingerprint function is not injective: the distinct input
triples `("a_b", some "c", none)` and `("a", some "b_c", none)` build the
same unescaped cache key `"a_b_c_None"`, hence the same fingerprint under
any hash function, so distinct query/filter combinations share one cache
slot. -/
theorem query_hash_collision :
    (∀ sha : String → String,
      _get_query_hash sha "a_b" (some "c") none =
        _get_query_hash sha "a" (some "b_c") none) ∧
    ("a_b", some "c", (none : Option String)) ≠
      ("a", some "b_c", (none : Option String)) := by
  constructor
  · intro sha
    have h : cache_key "a_b" (some "c") none = cache_key "a" (some "b_c") none := by
      decide
    unfold _get_query_hash
    rw [h]
  · decide

/-- C1: evaluating the hybrid combination of `hybrid_search` at the failing
input `semantic = [eA, eB]` (entry ids 1 and 2), `keyword = []`, `top_k = 5`
yields `[eA, eA]`: the entry with id 1 appears twice, so the output is not
deduplicated by entry identity (the comprehension evaluates the same
`next(...)` pick on every iteration). -/
theorem hybrid_combine_duplicates :
    hybridCombine [eA, eB] [] 5 = [eA, eA] ∧
    ¬ ((hybridCombine [eA, eB] [] 5).map KBEntry.id).Nodup := by
  constructor
  · decide
  · decide

/-- C4: for every generated text whose trimmed length is below 50 characters,
a non-raising run of `validate_generation` returns `is_valid = false` and
the too-short issue is among its reason codes. -/
theorem validator_too_short (embed : String → List Rat)
    (cos : List Rat → List Rat → Rat) (q g : String) (ctx : List KBEntry)
    (h : (pyStrip g).length < 50) :
    (validate_generation (fun t => Except.ok (embed t)) cos q g ctx).1 = false ∧
    Issue.tooShort ∈
      (validate_generation (fun t => Except.ok (embed t)) cos q g ctx).2.1 := by
  rw [validate_generation_ok]
  simp only [validateCore, if_pos h]
  constructor
  · simp
  · simp

theorem validator_too_short_witness :
    (validate_generation (fun t => Except.ok (embOne t)) cosOne "q" "" []).1 = false ∧
    Issue.tooShort ∈
      (validate_generation (fun t => Except.ok (embOne t)) cosOne "q" "" []).2.1 :=
  validator_too_short embOne cosOne "q" "" [] (by decide)

/-- C10: in every non-raising run of `validate_generation`, the returned
confidence is at least 3/4 (it starts at 1 and loses only the 1/10 and 3/20
quality penalties), so the `confidence > 1/2` conjunct never fails and the
verdict is valid exactly when the issues list is empty. -/
theorem validator_confidence_floor (embed : String → List Rat)
    (cos : List Rat → List Rat → Rat) (q g : String) (ctx : List KBEntry) :
    3/4 ≤ (validate_generation (fun t => Except.ok (embed t)) cos q g ctx).2.2 ∧
    ((validate_generation (fun t => Except.ok (embed t)) cos q g ctx).1 = true ↔
      (validate_generation (fun t => Except.ok (embed t)) cos q g ctx).2.1 = []) := by
  rw [validate_generation_ok]
  simp only [validateCore]
  rcases Bool.dichotomy (g.data.any Char.isDigit) with hn | hn <;>
    rcases Bool.dichotomy (actionVerbs.any fun v => strContainsSub (pyLower g) v.data)
      with hv | hv <;>
    simp [hn, hv, List.isEmpty_iff] <;> norm_num [mkRat_eq_div]

theorem except_bind_ok {ε α β : Type} (v : α) (f : α → Except ε β) :
    (Except.ok v >>= f) = f v := rfl

theorem except_bind_error {ε α β : Type} (e : ε) (f : α → Except ε β) :
    ((Except.error e : Except ε α) >>= f) = Except.error e := rfl

theorem embedAll_error (embedE : String → Except Unit (List Rat))
    (l : List KBEntry) (ex : KBEntry) (hmem : ex ∈ l)
    (herr : embedE ex.content = Except.error ()) :
    embedAll embedE l = Except.error () := by
  induction l with
  | nil => cases hmem
  | cons e rest ih =>
    rcases List.mem_cons.mp hmem with h | h
    · subst h
      simp only [embedAll, herr, except_bind_error]
    · cases he : embedE e.content with
      | error u =>
        cases u
        simp only [embedAll, he, except_bind_error]
      | ok v =>
        simp only [embedAll, he, except_bind_ok, ih h, except_bind_error]

/-- C2 (amended): when `validate_generation` is called with an empty context
list (in a non-raising run), the grounding check is NOT skipped: the max
grounding score defaults to 0, which is below the 0.2 threshold, so the
poor-grounding issue is always added to the reason codes and the verdict's
`is_valid` is false. -/
theorem validator_empty_context_grounding (embed : String → List Rat)
    (cos : List Rat → List Rat → Rat) (q g : String) :
    Issue.notWellGrounded 0 ∈
      (validate_generation (fun t => Except.ok (embed t)) cos q g []).2.1 ∧
    (validate_generation (fun t => Except.ok (embed t)) cos q g []).1 = false := by
  rw [validate_generation_ok]
  simp only [validateCore, List.map_nil]
  have h5 : (0:Rat) < mkRat 1 5 := by norm_num [mkRat_eq_div]
  simp only [if_pos h5]
  constructor
  · simp
  · simp

/-- C2 counterexample: `gLong` passes the length, relevance and quality
checks (the similarity oracle reports full relevance), yet with an empty
context the call returns `(False, [Issue.notWellGrounded 0], 1)`: the
poor-grounding issue is added and validity is lost, refuting the claim that
an empty context skips grounding and cannot fail the verdict. -/
theorem validator_empty_context_cex :
    validate_generation (fun t => Except.ok (embOne t)) cosOne "q" gLong [] =
      (false, [Issue.notWellGrounded 0], 1) := by
  rw [validate_generation_ok]
  decide

/-- C8: if the embedding backend raises on any text the validator embeds
(the generated text, the query text, or a context entry's content),
`validate_generation` does not propagate the exception: it returns the
degraded verdict `is_valid = true`, confidence `1/2`, with the
validation-skipped reason. -/
theorem validator_degraded (embedE : String → Except Unit (List Rat))
    (cos : List Rat → List Rat → Rat) (q g : String) (ctx : List KBEntry)
    (h : embedE g = Except.error () ∨ embedE q = Except.error () ∨
      ∃ ex ∈ ctx, embedE ex.content = Except.error ()) :
    validate_generation embedE cos q g ctx =
      (true, [Issue.validationSkipped], 1/2) := by
  have hbody : validateBody embedE cos q g ctx = Except.error () := by
    rcases h with hg | hq | ⟨ex, hmem, hex⟩
    · simp only [validateBody, hg, except_bind_error]
    · cases hge : embedE g with
      | error u =>
        cases u
        simp only [validateBody, hge, except_bind_error]
      | ok v =>
        simp only [validateBody, hge, except_bind_ok, hq, except_bind_error]
    · cases hge : embedE g with
      | error u =>
        cases u
        simp only [validateBody, hge, except_bind_error]
      | ok v =>
        cases hqe : embedE q with
        | error u =>
          cases u
          simp only [validateBody, hge, except_bind_ok, hqe, except_bind_error]
        | ok w =>
          simp only [validateBody, hge, except_bind_ok, hqe,
            embedAll_error embedE ctx ex hmem hex, except_bind_error]
  unfold validate_generation
  rw [hbody]
  norm_num [mkRat_eq_div]

theorem validator_degraded_witness :
    validate_generation (fun _ => Except.error ()) cosOne "q" "generated" [] =
      (true, [Issue.validationSkipped], 1/2) :=
  validator_degraded (fun _ => Except.error ()) cosOne "q" "generated" []
    (Or.inl rfl)

/-- C6: the composite re-ranking score equals
`0.3 * min(wordCount / 500, 1) + 0.4 * confidence + 0.3 * contentKindWeight`;
the fixed content-kind lookup gives full job description the highest weight,
then paragraph, then achievement statement, then bullet, and `1/2` for any
unknown kind; and the re-ranked output is sorted in descending order of the
composite score. -/
theorem rerank_score_spec :
    (∀ r : KBEntry, rerankScore r =
      3/10 * min ((r.word_count : Rat) / 500) 1 + 4/10 * r.confidence_score +
        3/10 * content_type_score r.content_type) ∧
    (content_type_score "paragraph" < content_type_score "job_description" ∧
     content_type_score "achievement" < content_type_score "paragraph" ∧
     content_type_score "bullet" < content_type_score "achievement") ∧
    (∀ ct : String,
      ct ∉ ["job_description", "paragraph", "bullet", "achievement"] →
      content_type_score ct = 1/2) ∧
    (∀ (q : String) (l : List KBEntry) (t : Option Nat),
      (_rerank_results q l t).Pairwise (fun x y => rerankScore y ≤ rerankScore x)) := by
  refine ⟨?_, ?_, ?_, ?_⟩
  · intro r
    unfold rerankScore
    simp only [mkRat_eq_div]
    push_cast
    ring
  · refine ⟨?_, ?_, ?_⟩ <;> simp [content_type_score] <;> norm_num [mkRat_eq_div]
  · intro ct h
    simp only [List.mem_cons, List.not_mem_nil, or_false, not_or] at h
    obtain ⟨h1, h2, h3, h4⟩ := h
    simp only [content_type_score, if_neg h1, if_neg h2, if_neg h3, if_neg h4]
    norm_num [mkRat_eq_div]
  · intro q l t
    unfold _rerank_results
    by_cases h : l.isEmpty
    · rw [List.isEmpty_iff.mp h]
      simp
    · simp only [h, Bool.false_eq_true, if_false]
      have hs : ((l.map (fun r => (r, rerankScore r))).mergeSort descSnd).Pairwise
          (fun x y => descSnd x y) :=
        List.sorted_mergeSort descSnd_trans descSnd_total _
      have hsnd : ∀ x ∈ (l.map (fun r => (r, rerankScore r))).mergeSort descSnd,
          x.2 = rerankScore x.1 := by
        intro x hx
        have hx2 := List.mem_mergeSort.mp hx
        obtain ⟨r, _, rfl⟩ := List.mem_map.mp hx2
        rfl
      have hp : (((l.map (fun r => (r, rerankScore r))).mergeSort descSnd).map
          Prod.fst).Pairwise (fun x y => rerankScore y ≤ rerankScore x) := by
        rw [List.pairwise_map]
        refine hs.imp_of_mem ?_
        intro x y hx hy hxy
        have h1 := hsnd x hx
        have h2 := hsnd y hy
        simp only [descSnd, decide_eq_true_eq] at hxy
        rw [h1, h2] at hxy
        exact hxy
      match t with
      | none => exact hp
      | some 0 => exact hp
      | some (Nat.succ n) => exact hp.sublist (List.take_sublist _ _)

theorem rerank_score_spec_witness :
    content_type_score "mystery" = 1/2 ∧
    rerankScore eA =
      3/10 * min ((eA.word_count : Rat) / 500) 1 + 4/10 * eA.confidence_score +
        3/10 * content_type_score eA.content_type ∧
    (_rerank_results "q" [eA, eB] none).Pairwise
      (fun x y => rerankScore y ≤ rerankScore x) :=
  ⟨rerank_score_spec.2.2.1 "mystery" (by decide),
   rerank_score_spec.1 eA,
   rerank_score_spec.2.2.2 "q" [eA, eB] none⟩

/-- C7 (amended): the re-ranked output is a truncation of a permutation of
its input — it never contains an entry absent from the input and never
raises any entry's multiplicity — hence it is duplicate-free whenever its
input is; but an input that already lists the same entry twice keeps the
duplicate (the universal "never contains the same entry twice" fails for
inputs with repeats). -/
theorem rerank_subperm (q : String) (l : List KBEntry) (t : Option Nat) :
    _rerank_results q l t <+~ l ∧
    (l.Nodup → (_rerank_results q l t).Nodup) := by
  have hsub : _rerank_results q l t <+~ l := by
    unfold _rerank_results
    by_cases h : l.isEmpty
    · simp only [h, if_true]
      exact List.Subperm.refl l
    · simp only [h, Bool.false_eq_true, if_false]
      have hperm := rerank_sorted_fst_perm l
      match t with
      | none => exact hperm.subperm
      | some 0 => exact hperm.subperm
      | some (Nat.succ n) =>
        exact (List.take_sublist _ _).subperm.trans hperm.subperm
  refine ⟨hsub, ?_⟩
  intro hnd
  obtain ⟨l2, hp, hs⟩ := hsub
  exact hp.nodup_iff.mp (List.Nodup.sublist hs hnd)

theorem rerank_subperm_witness :
    _rerank_results "q" [eA, eB] (some 1) <+~ [eA, eB] ∧
    (_rerank_results "q" [eA, eB] (some 1)).Nodup :=
  ⟨(rerank_subperm "q" [eA, eB] (some 1)).1,
   (rerank_subperm "q" [eA, eB] (some 1)).2 (by decide)⟩

/-- C7 counterexample: with the duplicated input `[eA, eA]`, re-ranking
returns `[eA, eA]` — the output contains the same entry twice, refuting the
claim for arbitrary input lists. -/
theorem rerank_duplicate_cex :
    _rerank_results "q" [eA, eA] none = [eA, eA] ∧
    ¬ ([eA, eA] : List KBEntry).Nodup := by
  constructor
  · have hd : descSnd (eA, rerankScore eA) (eA, rerankScore eA) = true := by
      simp [descSnd]
    simp [_rerank_results, mergeSort_pair, hd]
  · decide

/-- C5 counterexample: corpus `[eC, eD]` (eC inserted first, ids 3 then 4),
every similarity score and every re-rank score equal; uncached retrieval
returns `[eD, eC]` — the FIRST-inserted entry comes SECOND — refuting that
equal-score candidates are kept in corpus insertion order. -/
theorem similarity_tiebreak_cex :
    (retrieve_similar_examples cosOne embOne shaId [eC, eD] [] "q" none none
        2 false).1 = [eD, eC] ∧ eC ≠ eD := by
  constructor
  · have hcand : filteredCandidates [eC, eD] none none = [eD, eC] := by decide
    have hsim : similarityList cosOne (embOne "q") [eD, eC] =
        [(eD, 1), (eC, 1)] := by decide
    have hd1 : descSnd ((eD : KBEntry), (1 : Rat)) (eC, 1) = true := by decide
    have hrank : rankedSimilarities cosOne (embOne "q")
        (filteredCandidates [eC, eD] none none) = [(eD, 1), (eC, 1)] := by
      rw [rankedSimilarities, hcand, hsim, mergeSort_pair, if_pos hd1]
    have hd2 : descSnd (eD, rerankScore eD) (eC, rerankScore eC) = true := by
      have hsc : rerankScore eC = rerankScore eD := rfl
      simp [descSnd, hsc]
    show retrieveCompute cosOne embOne [eC, eD] "q" none none 2 = [eD, eC]
    rw [retrieveCompute]
    rw [hrank]
    show _rerank_results "q" [eD, eC] none = [eD, eC]
    simp [_rerank_results, mergeSort_pair, hd2]
  · decide

/-- C5 (amended): the similarity sort of `retrieve_similar_examples` is
stable, but the candidate order it stabilizes over is the corpus's
newest-first database order (`Meta.ordering = ["-created_at"]`) — the
REVERSE of insertion order: when candidate `a` was inserted before `b`,
both pass the facet filters and receive equal similarity scores, the ranked
list keeps `b` (the later insertion) before `a`. -/
theorem similarity_tiebreak_reverse (cos : List Rat → List Rat → Rat)
    (qe : List Rat) (pre mid post : List KBEntry) (a b : KBEntry)
    (va vb : List Rat) (p s : Option String)
    (hlen : (pre ++ [a] ++ mid ++ [b] ++ post).length ≤ 2000)
    (hpa : (passFilter p a.profession && passFilter s a.cv_section) = true)
    (hpb : (passFilter p b.profession && passFilter s b.cv_section) = true)
    (hva : a.embedding = some va) (hvb : b.embedding = some vb)
    (heq : cos qe va = cos qe vb) :
    [(b, cos qe vb), (a, cos qe va)] <+
      rankedSimilarities cos qe
        (filteredCandidates (pre ++ [a] ++ mid ++ [b] ++ post) p s) := by
  have hba : [b, a] <+ dbOrder (pre ++ [a] ++ mid ++ [b] ++ post) := by
    have hty : dbOrder (pre ++ [a] ++ mid ++ [b] ++ post) =
        post.reverse ++ ([b] ++ (mid.reverse ++ ([a] ++ pre.reverse))) := by
      simp [dbOrder]
    rw [hty]
    have s1 : [a] <+ [a] ++ pre.reverse := List.sublist_append_left _ _
    have s2 : [a] <+ mid.reverse ++ ([a] ++ pre.reverse) :=
      List.sublist_append_of_sublist_right s1
    have s3 : [b] ++ [a] <+ [b] ++ (mid.reverse ++ ([a] ++ pre.reverse)) :=
      (List.Sublist.refl [b]).append s2
    exact List.sublist_append_of_sublist_right s3
  have hfil : [b, a] <+
      (dbOrder (pre ++ [a] ++ mid ++ [b] ++ post)).filter
        (fun e => passFilter p e.profession && passFilter s e.cv_section) := by
    have h2 := hba.filter
      (fun e => passFilter p e.profession && passFilter s e.cv_section)
    simpa [List.filter_cons, hpa, hpb] using h2
  have hcand : [b, a] <+
      filteredCandidates (pre ++ [a] ++ mid ++ [b] ++ post) p s := by
    unfold filteredCandidates
    rwa [List.take_of_length_le]
    calc ((dbOrder (pre ++ [a] ++ mid ++ [b] ++ post)).filter _).length
        ≤ (dbOrder (pre ++ [a] ++ mid ++ [b] ++ post)).length :=
          List.length_filter_le _ _
      _ ≤ 2000 := by
          have h4 := hlen
          simp [dbOrder] at h4 ⊢
          omega
  have hsim : [(b, cos qe vb), (a, cos qe va)] <+
      similarityList cos qe
        (filteredCandidates (pre ++ [a] ++ mid ++ [b] ++ post) p s) := by
    have h3 := similarityList_sublist cos qe hcand
    simpa [similarityList, List.filterMap_cons, hva, hvb] using h3
  have hab : descSnd (b, cos qe vb) (a, cos qe va) = true := by
    simp [descSnd, heq]
  exact List.pair_sublist_mergeSort descSnd_trans descSnd_total hab hsim

theorem similarity_tiebreak_reverse_witness :
    [((eD : KBEntry), cosOne [1] [1]), (eC, cosOne [1] [1])] <+
      rankedSimilarities cosOne [1] (filteredCandidates [eC, eD] none none) :=
  similarity_tiebreak_reverse cosOne [1] [] [] [] eC eD [1] [1] none none
    (by decide) (by decide) (by decide) rfl rfl rfl

theorem subperm_map {α β : Type} (f : α → β) {l₁ l₂ : List α}
    (h : l₁ <+~ l₂) : l₁.map f <+~ l₂.map f := by
  obtain ⟨l, hp, hs⟩ := h
  exact ⟨l.map f, hp.map f, hs.map f⟩

theorem retrieveCompute_subperm (cos : List Rat → List Rat → Rat)
    (embed : String → List Rat) (corpus : List KBEntry) (q : String)
    (p s : Option String) (k : Nat) :
    retrieveCompute cos embed corpus q p s k <+~ corpus := by
  unfold retrieveCompute
  have t0 : filteredCandidates corpus p s <+ dbOrder corpus :=
    (List.take_sublist _ _).trans (List.filter_sublist _)
  have t1 : ((rankedSimilarities cos (embed q)
        (filteredCandidates corpus p s)).take k).map Prod.fst
      <+ (rankedSimilarities cos (embed q)
        (filteredCandidates corpus p s)).map Prod.fst :=
    (List.take_sublist _ _).map _
  have t2 : (rankedSimilarities cos (embed q)
        (filteredCandidates corpus p s)).map Prod.fst
      ~ (similarityList cos (embed q)
        (filteredCandidates corpus p s)).map Prod.fst :=
    (List.mergeSort_perm _ _).map _
  have t3 := similarityList_fst_sublist cos (embed q) (filteredCandidates corpus p s)
  have t5 : dbOrder corpus ~ corpus := List.reverse_perm corpus
  have hr := rerank_none_perm q
    (((rankedSimilarities cos (embed q)
      (filteredCandidates corpus p s)).take k).map Prod.fst)
  exact hr.subperm.trans (t1.subperm.trans (t2.subperm.trans
    (t3.subperm.trans (t0.subperm.trans t5.subperm))))

theorem resolve_ids_perm (corpus R : List KBEntry)
    (hnodup : (corpus.map KBEntry.id).Nodup) (hsub : R <+~ corpus) :
    (((dbOrder corpus).filter
        (fun e => (R.map KBEntry.id).contains e.id)).map KBEntry.id)
      ~ R.map KBEntry.id := by
  have hmapsub : R.map KBEntry.id <+~ corpus.map KBEntry.id :=
    subperm_map KBEntry.id hsub
  have hRnodup : (R.map KBEntry.id).Nodup := by
    obtain ⟨l, hp, hs⟩ := hmapsub
    exact hp.nodup_iff.mp (List.Nodup.sublist hs hnodup)
  have hLnodup : (((dbOrder corpus).filter
      (fun e => (R.map KBEntry.id).contains e.id)).map KBEntry.id).Nodup := by
    have hsl : ((dbOrder corpus).filter
        (fun e => (R.map KBEntry.id).contains e.id)).map KBEntry.id
        <+ (dbOrder corpus).map KBEntry.id :=
      (List.filter_sublist _).map _
    have hrev : ((dbOrder corpus).map KBEntry.id).Nodup := by
      simpa [dbOrder] using hnodup
    exact List.Nodup.sublist hsl hrev
  refine (List.perm_ext_iff_of_nodup hLnodup hRnodup).mpr ?_
  intro x
  constructor
  · intro hx
    obtain ⟨e, he, rfl⟩ := List.mem_map.mp hx
    have hc := (List.mem_filter.mp he).2
    simpa [List.contains, List.elem_eq_mem] using hc
  · intro hx
    have hxc : x ∈ corpus.map KBEntry.id := hmapsub.subset hx
    obtain ⟨e, he, rfl⟩ := List.mem_map.mp hxc
    refine List.mem_map.mpr ⟨e, List.mem_filter.mpr ⟨?_, ?_⟩, rfl⟩
    · simpa [dbOrder] using he
    · simpa [List.contains, List.elem_eq_mem] using hx

theorem get_cached_singleton (sha : String → String) (corpus : List KBEntry)
    (q : String) (p s : Option String) (row : CacheRecord) :
    _get_cached_results sha corpus [(_get_query_hash sha q p s, row)] q p s =
      (some ((dbOrder corpus).filter (fun e => row.result_ids.contains e.id)),
       [(_get_query_hash sha q p s,
         { row with hit_count := row.hit_count + 1 })]) := by
  unfold _get_cached_results
  simp [cacheLookup, cacheUpdate]

theorem cache_results_singleton (sha : String → String) (q : String)
    (p s : Option String) (results : List KBEntry) (row : CacheRecord) :
    _cache_results sha [(_get_query_hash sha q p s, row)] q p s results =
      [(_get_query_hash sha q p s,
        { row with profession := orDefault p "General",
                   cv_section := orDefault s "all", query_text := q,
                   result_ids := results.map KBEntry.id })] := by
  unfold _cache_results
  simp [cacheLookup, cacheUpdate]

/-- C3 (amended): with a duplicate-free corpus, calling
`retrieve_similar_examples(q, filters, k, use_cache=True)` twice from an
empty cache returns, on the second (cache-hit) call, the same SET of entry
ids as the first call — each first-call id exactly once — but re-resolved in
the corpus's newest-first database order rather than the first call's ranked
order (the hit path rebuilds the list with
`KnowledgeBase.objects.filter(id__in=...)`); the cached record's hit counter
increments by exactly 1 on the reuse. -/
theorem retrieve_cache_reuse (cos : List Rat → List Rat → Rat)
    (embed : String → List Rat) (sha : String → String)
    (corpus : List KBEntry) (q : String) (p s : Option String) (k : Nat)
    (hnodup : (corpus.map KBEntry.id).Nodup) :
    ((retrieve_similar_examples cos embed sha corpus
        (retrieve_similar_examples cos embed sha corpus [] q p s k true).2
        q p s k true).1.map KBEntry.id).Perm
      ((retrieve_similar_examples cos embed sha corpus [] q p s k
        true).1.map KBEntry.id) ∧
    hitCount (retrieve_similar_examples cos embed sha corpus
        (retrieve_similar_examples cos embed sha corpus [] q p s k true).2
        q p s k true).2 (_get_query_hash sha q p s) =
      hitCount (retrieve_similar_examples cos embed sha corpus [] q p s k
        true).2 (_get_query_hash sha q p s) + 1 := by
  have hsubR := retrieveCompute_subperm cos embed corpus q p s k
  have hpermL := resolve_ids_perm corpus
    (retrieveCompute cos embed corpus q p s k) hnodup hsubR
  have hfirst : retrieve_similar_examples cos embed sha corpus [] q p s k true =
      (retrieveCompute cos embed corpus q p s k,
        [(_get_query_hash sha q p s,
          { profession := orDefault p "General",
            cv_section := orDefault s "all", query_text := q,
            result_ids := (retrieveCompute cos embed corpus q p s k).map
              KBEntry.id,
            hit_count := 0 })]) := by
    unfold retrieve_similar_examples _get_cached_results _cache_results
    simp [cacheLookup]
  rw [hfirst]
  unfold retrieve_similar_examples
  rw [get_cached_singleton]
  simp only [if_true]
  by_cases hL : ((dbOrder corpus).filter (fun e =>
      ((retrieveCompute cos embed corpus q p s k).map
        KBEntry.id).contains e.id)).isEmpty
  · simp only [hL, if_true, cache_results_singleton]
    constructor
    · exact List.Perm.refl _
    · simp [hitCount, cacheLookup]
  · simp only [hL, Bool.false_eq_true, if_false]
    constructor
    · exact hpermL
    · simp [hitCount, cacheLookup]

theorem retrieve_cache_reuse_witness :
    ((retrieve_similar_examples cosOne embOne shaId [eA, eB]
        (retrieve_similar_examples cosOne embOne shaId [eA, eB] [] "q" none
          none 2 true).2 "q" none none 2 true).1.map KBEntry.id).Perm
      ((retrieve_similar_examples cosOne embOne shaId [eA, eB] [] "q" none
        none 2 true).1.map KBEntry.id) ∧
    hitCount (retrieve_similar_examples cosOne embOne shaId [eA, eB]
        (retrieve_similar_examples cosOne embOne shaId [eA, eB] [] "q" none
          none 2 true).2 "q" none none 2 true).2
      (_get_query_hash shaId "q" none none) =
      hitCount (retrieve_similar_examples cosOne embOne shaId [eA, eB] [] "q"
        none none 2 true).2 (_get_query_hash shaId "q" none none) + 1 :=
  retrieve_cache_reuse cosOne embOne shaId [eA, eB] "q" none none 2 (by decide)

/-- C3 counterexample: with corpus `[eA, eB]` (ids 1, 2) and all similarity
scores equal, the first cached call returns ids `[1, 2]` (re-rank puts eA
first) while the second, cache-hit call returns ids `[2, 1]` (newest-first
re-resolution) — the entry ID sequences are NOT identical. -/
theorem retrieve_cache_order_cex :
    (retrieve_similar_examples cosOne embOne shaId [eA, eB] [] "q" none none 2
        true).1.map KBEntry.id = [1, 2] ∧
    (retrieve_similar_examples cosOne embOne shaId [eA, eB]
        (retrieve_similar_examples cosOne embOne shaId [eA, eB] [] "q" none
          none 2 true).2 "q" none none 2 true).1.map KBEntry.id = [2, 1] ∧
    ([1, 2] : List Nat) ≠ [2, 1] := by
  have hcand : filteredCandidates [eA, eB] none none = [eB, eA] := by decide
  have hsim : similarityList cosOne (embOne "q") [eB, eA] =
      [(eB, 1), (eA, 1)] := by decide
  have hd1 : descSnd ((eB : KBEntry), (1 : Rat)) (eA, 1) = true := by decide
  have hrank : rankedSimilarities cosOne (embOne "q")
      (filteredCandidates [eA, eB] none none) = [(eB, 1), (eA, 1)] := by
    rw [rankedSimilarities, hcand, hsim, mergeSort_pair, if_pos hd1]
  have hsA : rerankScore eA = 1 := by
    norm_num [rerankScore, content_type_score, eA, mkRat_eq_div]
  have hsB : rerankScore eB = 9/50 := by
    norm_num [rerankScore, content_type_score, eB, mkRat_eq_div, min_def]
    rw [if_neg (by decide : ¬ ("bullet" = "job_description")),
      if_neg (by decide : ¬ ("bullet" = "paragraph"))]
  have hd2 : descSnd (eB, rerankScore eB) (eA, rerankScore eA) = false := by
    rw [descSnd, hsA, hsB]
    norm_num
  have hcomp : retrieveCompute cosOne embOne [eA, eB] "q" none none 2 =
      [eA, eB] := by
    rw [retrieveCompute, hrank]
    show _rerank_results "q" [eB, eA] none = [eA, eB]
    simp [_rerank_results, mergeSort_pair, hd2]
  have h1 : retrieve_similar_examples cosOne embOne shaId [eA, eB] [] "q" none
      none 2 true =
      ([eA, eB], [("q_None_None",
        { profession := "General", cv_section := "all", query_text := "q",
          result_ids := [1, 2], hit_count := 0 })]) := by
    unfold retrieve_similar_examples _get_cached_results _cache_results
    simp [cacheLookup, hcomp, _get_query_hash, cache_key, shaId, orDefault]
    decide
  refine ⟨?_, ?_, by decide⟩
  · rw [h1]
    decide
  · rw [h1]
    decide

end CvGen
